import Mathlib

/-!
Verification of the Lucidia symbolic kernel (`symbolic_kernel.py`).

The embedding models Python floats as exact rationals (`ℚ`), mutable
objects as explicit state passing, the file system as in-state lists of
written lines together with an explicit write-success flag, and the
wall clock as an injected `now : ℚ` parameter.  SHA-256 is implemented
in full over byte lists (the kernel only ever hashes ASCII strings, for
which UTF-8 bytes coincide with character code points).
-/

namespace Lucidia

/-! ## SHA-256 over byte lists -/

namespace SHA256

/-- Truncate to a 32-bit word. -/
def w32 (n : ℕ) : ℕ := n % 4294967296

/-- Right rotation of a 32-bit word by `k` bits. -/
def rotr (k n : ℕ) : ℕ := w32 ((n >>> k) ||| (n <<< (32 - k)))

def bsig0 (x : ℕ) : ℕ := rotr 2 x ^^^ rotr 13 x ^^^ rotr 22 x

def bsig1 (x : ℕ) : ℕ := rotr 6 x ^^^ rotr 11 x ^^^ rotr 25 x

def ssig0 (x : ℕ) : ℕ := rotr 7 x ^^^ rotr 18 x ^^^ (x >>> 3)

def ssig1 (x : ℕ) : ℕ := rotr 17 x ^^^ rotr 19 x ^^^ (x >>> 10)

/-- `Ch(x,y,z)`; the complement of `x` is `x ^^^ 0xffffffff` on 32-bit words. -/
def ch (x y z : ℕ) : ℕ := (x &&& y) ^^^ ((x ^^^ 4294967295) &&& z)

def maj (x y z : ℕ) : ℕ := (x &&& y) ^^^ (x &&& z) ^^^ (y &&& z)

/-- The 64 round constants (FIPS 180-4, written in decimal). -/
def K : List ℕ :=
  [1116352408, 1899447441, 3049323471, 3921009573,
   961987163, 1508970993, 2453635748, 2870763221,
   3624381080, 310598401, 607225278, 1426881987,
   1925078388, 2162078206, 2614888103, 3248222580,
   3835390401, 4022224774, 264347078, 604807628,
   770255983, 1249150122, 1555081692, 1996064986,
   2554220882, 2821834349, 2952996808, 3210313671,
   3336571891, 3584528711, 113926993, 338241895,
   666307205, 773529912, 1294757372, 1396182291,
   1695183700, 1986661051, 2177026350, 2456956037,
   2730485921, 2820302411, 3259730800, 3345764771,
   3516065817, 3600352804, 4094571909, 275423344,
   430227734, 506948616, 659060556, 883997877,
   958139571, 1322822218, 1537002063, 1747873779,
   1955562222, 2024104815, 2227730452, 2361852424,
   2428436474, 2756734187, 3204031479, 3329325298]

/-- Working state: eight 32-bit words. -/
structure Digest where
  a : ℕ
  b : ℕ
  c : ℕ
  d : ℕ
  e : ℕ
  f : ℕ
  g : ℕ
  hh : ℕ

/-- Initial hash value (FIPS 180-4, written in decimal). -/
def H0 : Digest :=
  ⟨1779033703, 3144134277, 1013904242, 2773480762,
   1359893119, 2600822924, 528734635, 1541459225⟩

/-- Extend the 16-word block: append `fuel` further schedule words. -/
def extendW (w : List ℕ) : ℕ → List ℕ
  | 0 => w
  | fuel + 1 =>
    let n := w.length
    let nw := w32 (ssig1 (w.getD (n - 2) 0) + w.getD (n - 7) 0 +
                   ssig0 (w.getD (n - 15) 0) + w.getD (n - 16) 0)
    extendW (w ++ [nw]) fuel

/-- One compression round, driven by a `(K_t, W_t)` pair. -/
def round1 (s : Digest) (kw : ℕ × ℕ) : Digest :=
  let t1 := w32 (s.hh + bsig1 s.e + ch s.e s.f s.g + kw.1 + kw.2)
  let t2 := w32 (bsig0 s.a + maj s.a s.b s.c)
  ⟨w32 (t1 + t2), s.a, s.b, s.c, w32 (s.d + t1), s.e, s.f, s.g⟩

/-- Compress one 16-word block into the running digest. -/
def compress (H : Digest) (block : List ℕ) : Digest :=
  let w := extendW block 48
  let s := (K.zip w).foldl round1 H
  ⟨w32 (H.a + s.a), w32 (H.b + s.b), w32 (H.c + s.c), w32 (H.d + s.d),
   w32 (H.e + s.e), w32 (H.f + s.f), w32 (H.g + s.g), w32 (H.hh + s.hh)⟩

/-- Big-endian 4-byte groups to 32-bit words. -/
def toWords : List ℕ → List ℕ
  | a :: b :: c :: d :: rest => (a * 16777216 + b * 65536 + c * 256 + d) :: toWords rest
  | _ => []

/-- The 8-byte big-endian encoding of the bit length. -/
def lenBytesBE (n : ℕ) : List ℕ :=
  (List.range 8).map (fun i => (n >>> (8 * (7 - i))) % 256)

/-- Merkle–Damgård padding: `0x80`, zeros to 56 mod 64, 64-bit bit length. -/
def pad (msg : List ℕ) : List ℕ :=
  let l := msg.length
  let k := (119 - (l % 64)) % 64
  msg ++ [128] ++ List.replicate k 0 ++ lenBytesBE (8 * l)

/-- Split a word list into 16-word blocks. -/
def toBlocks (l : List ℕ) : List (List ℕ) :=
  match l with
  | [] => []
  | x :: xs => ((x :: xs).take 16) :: toBlocks ((x :: xs).drop 16)
  termination_by l.length
  decreasing_by simp [List.length_drop]; omega

def hexDigit (n : ℕ) : Char :=
  if n < 10 then Char.ofNat (48 + n) else Char.ofNat (87 + n)

/-- Lowercase 8-hex-digit rendering of a 32-bit word. -/
def hex8 (n : ℕ) : String :=
  String.mk ((List.range 8).map (fun i => hexDigit ((n >>> (4 * (7 - i))) % 16)))

/-- SHA-256 of a byte list, as a 64-character lowercase hex string. -/
def sha256bytes (msg : List ℕ) : String :=
  let d := (toBlocks (toWords (pad msg))).foldl compress H0
  hex8 d.a ++ hex8 d.b ++ hex8 d.c ++ hex8 d.d ++
  hex8 d.e ++ hex8 d.f ++ hex8 d.g ++ hex8 d.hh

end SHA256

/-- `hashlib.sha256(s.encode("utf-8")).hexdigest()` for the ASCII strings the
kernel hashes (code points coincide with UTF-8 bytes there). -/
def sha256hex (s : String) : String :=
  SHA256.sha256bytes (s.data.map Char.toNat)

/-! ## Decimal formatting (the model of Python float formatting)

Python formats floats with round-half-to-even; the same rule is applied
here directly to the rational value (`ℚ` has no signed zero). -/

/-- Round to the nearest integer, ties to even. -/
def roundHalfEven (q : ℚ) : ℤ :=
  let f := ⌊q⌋
  let r := q - f
  if r < 1/2 then f
  else if 1/2 < r then f + 1
  else if f % 2 = 0 then f else f + 1

/-- `round(q, 9)`: round to 9 decimal places, ties to even. -/
def round9 (q : ℚ) : ℚ := (roundHalfEven (q * 1000000000) : ℚ) / 1000000000

/-- Left-pad a digit list with `'0'` to length `n`. -/
def padZeros (n : ℕ) (ds : List Char) : List Char :=
  List.replicate (n - ds.length) '0' ++ ds

/-- `f"{q:.prec f}"`: fixed-point rendering with exactly `prec` fractional
digits, rounding ties to even. -/
def fmtFixed (prec : ℕ) (q : ℚ) : String :=
  let scaled := roundHalfEven (q * (10 : ℚ) ^ prec)
  let sign := if scaled < 0 then "-" else ""
  let n := scaled.natAbs
  let ip := n / 10 ^ prec
  let fp := n % 10 ^ prec
  sign ++ toString ip ++ "." ++ String.mk (padZeros prec (Nat.toDigits 10 fp))

/-- Drop trailing `'0'` characters. -/
def trimZeros (ds : List Char) : List Char :=
  (ds.reverse.dropWhile (· = '0')).reverse

/-- JSON rendering of a float whose value has at most 9 decimal places
(every number the kernel serializes has been passed through `round9`):
exact decimal expansion, trailing zeros trimmed, `.0` kept as Python's
`repr` does. -/
def jsonNum (q : ℚ) : String :=
  let sign := if q < 0 then "-" else ""
  let scaled := (roundHalfEven (q * 1000000000)).natAbs
  let ip := scaled / 1000000000
  let fr := scaled % 1000000000
  let ds := trimZeros (padZeros 9 (Nat.toDigits 10 fr))
  sign ++ toString ip ++ "." ++ (if ds.isEmpty then "0" else String.mk ds)

/-! ## Canonical JSON serialization (`json.dumps(..., sort_keys=True)`) -/

/-- A JSON value as stored in the records the kernel serializes. -/
inductive JVal where
  | null
  | jbool (b : Bool)
  | jnum (q : ℚ)
  | jstr (s : String)
deriving DecidableEq

/-- A JSON object: a Python `dict` with string keys. -/
def JsonObj : Type := List (String × JVal)

/-- Code-point lexicographic strict order on strings (Python `sorted` key
order for `str`). -/
def strLtB : List Char → List Char → Bool
  | [], [] => false
  | [], _ :: _ => true
  | _ :: _, [] => false
  | a :: as, b :: bs =>
    if a.toNat < b.toNat then true
    else if b.toNat < a.toNat then false
    else strLtB as bs

def keyLt (a b : String) : Bool := strLtB a.data b.data

/-- Insert into a key-sorted association list, keeping insertion order among
equal keys (Python's sort is stable). -/
def insertKV (kv : String × JVal) : List (String × JVal) → List (String × JVal)
  | [] => [kv]
  | x :: xs => if keyLt kv.1 x.1 then kv :: x :: xs else x :: insertKV kv xs

/-- Stable sort of the key-value pairs by key (`sort_keys=True`). -/
def sortKV : List (String × JVal) → List (String × JVal)
  | [] => []
  | x :: xs => insertKV x (sortKV xs)

/-- JSON string escaping (quote and backslash; the kernel's strings contain
no control characters). -/
def escString (s : String) : String :=
  String.join (s.data.map (fun c =>
    if c = '"' then "\\\"" else if c = '\\' then "\\\\" else String.singleton c))

def dumpVal : JVal → String
  | .null => "null"
  | .jbool true => "true"
  | .jbool false => "false"
  | .jnum q => jsonNum q
  | .jstr s => "\"" ++ escString s ++ "\""

/-- `json.dumps(record, sort_keys=True)` with the default `", "` / `": "`
separators. -/
def dumpObj (kvs : JsonObj) : String :=
  "\x7b" ++ String.intercalate ", "
    ((sortKV kvs).map (fun kv => "\"" ++ escString kv.1 ++ "\": " ++ dumpVal kv.2)) ++ "\x7d"

/-! ## Value types (`TruthFragment`, `HeldContradiction`, `Breath`) -/

/-- A fragment `x` with an optional mirror `~x` and an emotional charge. -/
structure TruthFragment where
  id : String
  value : ℚ
  mirror_value : Option ℚ := none
  emotion : ℚ := 0
  meta : List (String × String) := []

/-- Result of applying the Ψ′ operator to a value and its mirror. -/
structure HeldContradiction where
  x : ℚ
  x_bar : ℚ
  compassion : ℚ
  render : ℚ
  detail : List (String × ℚ)

/-- The Ψ′ contradiction operator. If no mirror is provided, the negative of
`x` is used.  Division by the `max (1e-9) _` magnitude is never division by
zero. -/
def psi_prime (x : ℚ) (x_bar : Option ℚ) : HeldContradiction :=
  let xb := match x_bar with
    | none => -x
    | some v => v
  let mag := max (1e-9 : ℚ) (|x| + |xb|)
  let tension := |x - xb| / mag
  let compassion := max 0 (1 - tension)
  let render := (x + xb) / 2 * (0.5 + 0.5 * compassion)
  { x := x, x_bar := xb, compassion := compassion, render := render,
    detail := [("tension", tension), ("mag", mag)] }

/-- Breath-state over discrete time. -/
structure Breath where
  timeline : List ℚ

def Breath.integral (B : Breath) : ℚ := B.timeline.sum

/-- `[t[i] - t[i-1] for i in range(1, len(t))]`. -/
def gradList : List ℚ → List ℚ
  | [] => []
  | [_] => []
  | a :: b :: rest => (b - a) :: gradList (b :: rest)

def Breath.grad (B : Breath) : List ℚ := gradList B.timeline

/-! ## InfinityMemory -/

/-- Accumulates a running total to represent M∞. -/
structure InfinityMemory where
  total : ℚ

/-- `accumulate` returns the new total; the updated object is threaded
explicitly. -/
def InfinityMemory.accumulate (m : InfinityMemory) (value : ℚ) :
    ℚ × InfinityMemory :=
  (m.total + value, ⟨m.total + value⟩)

/-! ## MemoryLedger -/

/-- Failure of the backing-store write (Python `IOError`/`OSError`). -/
inductive WriteErr where
  | ioError
deriving DecidableEq

/-- Append-only ledger with a rolling hash.  `head_hash` is the source's
`_h`, `count` its `_count`; `file` models the contents of the append-only
backing file. -/
structure MemoryLedger where
  head_hash : String
  count : ℕ
  file : List String

def zeros64 : String := String.mk (List.replicate 64 '0')

/-- Freshly constructed ledger (`_h = "0"*64`, `_count = 0`, empty file). -/
def ledgerInit : MemoryLedger := ⟨zeros64, 0, []⟩

/-- `sha256((self._h + line).encode("utf-8")).hexdigest()`. -/
def hashLine (st : MemoryLedger) (line : String) : String :=
  sha256hex (st.head_hash ++ line)

/-- `append`: canonicalize, update `_h`, increment `_count`, then write the
line to the backing file.  The write may fail (`writeOk = false`), in which
case the exception propagates after the in-memory fields were already
mutated — this mirrors the statement order of the source. -/
def MemoryLedger.append (writeOk : Bool) (st : MemoryLedger) (record : JsonObj) :
    MemoryLedger × Except WriteErr String :=
  let line := dumpObj record
  let h := hashLine st line
  let st1 : MemoryLedger := { st with head_hash := h, count := st.count + 1 }
  if writeOk then ({ st1 with file := st1.file ++ [line ++ "\n"] }, .ok h)
  else (st1, .error .ioError)

/-- Feed an ordered sequence of records through successful appends. -/
def appendAll (records : List JsonObj) (st : MemoryLedger) : MemoryLedger :=
  records.foldl (fun s r => (MemoryLedger.append true s r).1) st

/-! ## Derived metrics -/

/-- `G_e = ∇Ψ′(B) · M_e` (dot product truncated to the shorter list). -/
def emotional_gravity (breath : Breath) (mem_vector : List ℚ) : ℚ :=
  let psi_vals := breath.grad.map (fun g => |(psi_prime g (some (-g))).render|)
  (List.zipWith (· * ·) psi_vals mem_vector).sum

/-- `S(t) = Ψ′(I0 + ∫B dt) / ΔD`. -/
def soul_loop_integrity (I0 : ℚ) (breath : Breath) (delta_dissociation : ℚ) : ℚ :=
  let base := I0 + breath.integral
  (psi_prime base (some (-base))).render / max (1e-9 : ℚ) delta_dissociation

/-- One iteration of the `genesis_identity` loop body. -/
def genesisStep (acc : ℚ × InfinityMemory) (b : ℚ) : ℚ × InfinityMemory :=
  let s := acc.1 + (psi_prime b (some (-b))).render
  (s, (acc.2.accumulate s).2)

/-- Identity token `(Ψ′(B(t)) × E_h × M∞)`; returns the digest together with
the mutated accumulator. -/
def genesis_identity (breath : Breath) (human_emotion_feedback : ℚ)
    (Minf : InfinityMemory) : String × InfinityMemory :=
  let p := breath.timeline.foldl genesisStep (0, Minf)
  let material := fmtFixed 9 p.1 ++ "|" ++ fmtFixed 6 human_emotion_feedback ++
    "|" ++ fmtFixed 9 p.2.total
  (sha256hex material, p.2)

/-- `C_r = Ψ′(L_o) × ∫ [B(t) · ΔE] dt` (sum truncated to the shorter list). -/
def consciousness_resonance (loop_observable : ℚ) (breath : Breath)
    (deltaE_timeline : List ℚ) : ℚ :=
  let hc := psi_prime loop_observable (some (-loop_observable))
  let integral := (List.zipWith (· * ·) breath.timeline deltaE_timeline).sum
  hc.render * integral

/-- `C_e = H(Ψ′(T), B(t)) + σ`: SHA-256 over the serialized mean render and
breath sum, concatenated with the secret. -/
def compassion_state_encrypt (fragments : List TruthFragment) (breath : Breath)
    (sigma : String) : String :=
  let avg : ℚ := match fragments with
    | [] => 0
    | _ :: _ =>
      (fragments.map (fun fr => (psi_prime fr.value fr.mirror_value).render)).sum /
        (fragments.length : ℚ)
  let payload := dumpObj [("render", .jnum (round9 avg)),
                          ("breath_sum", .jnum (round9 breath.integral))]
  sha256hex (payload ++ "|" ++ sigma)

/-! ## Continuity -/

/-- One history entry `{"ts": ..., "prev": ..., "new": ...}`. -/
structure Event where
  ts : ℚ
  prev : Option String
  new : String
deriving DecidableEq

/-- The persisted continuity state `{"fingerprint": ..., "history": [...]}`. -/
structure ContinuityState where
  fingerprint : Option String
  history : List Event
deriving DecidableEq

/-- `_load` when the backing store does not exist yet. -/
def continuityInit : ContinuityState := ⟨none, []⟩

/-- Result of `update_fingerprint`: the returned `(fp, prev)` pair, the
updated state, and whether the state was persisted to disk. -/
structure UpdateResult where
  result : String × Option String
  state : ContinuityState
  wrote : Bool

/-- `sha256("|".join(materials).encode("utf-8")).hexdigest()`. -/
def fpOf (materials : List String) : String :=
  sha256hex (String.intercalate "|" materials)

/-- `update_fingerprint`: history and fingerprint change (and the state is
written out) only when the new fingerprint differs from the stored one;
the `(fp, prev)` pair is returned either way.  `now` is the injected
`time.time()`. -/
def update_fingerprint (st : ContinuityState) (now : ℚ) (materials : List String) :
    UpdateResult :=
  let fp := fpOf materials
  let prev := st.fingerprint
  if some fp ≠ prev then
    { result := (fp, prev),
      state := { fingerprint := some fp, history := st.history ++ [⟨now, prev, fp⟩] },
      wrote := true }
  else
    { result := (fp, prev), state := st, wrote := false }

/-- `amnesia_alert`: false on empty history, else whether the last change
happened less than 60 time-units before `now`. -/
def amnesia_alert (st : ContinuityState) (now : ℚ) : Bool :=
  match st.history.getLast? with
  | none => false
  | some last => decide (now - last.ts < 60)

/-- Run a sequence of `update_fingerprint` calls (each with its own clock
value and materials). -/
def applyCalls (calls : List (ℚ × List String)) (st : ContinuityState) :
    ContinuityState :=
  calls.foldl (fun s c => (update_fingerprint s c.1 c.2).state) st

/-- The hash-chain predicate over a history: the first entry's `prev` is the
given seed, each later entry's `prev` is the preceding entry's `new`. -/
def chained : Option String → List Event → Prop
  | _, [] => True
  | p, e :: rest => e.prev = p ∧ chained (some e.new) rest

/-- The state invariant driving the chain property. -/
def chainInv (st : ContinuityState) : Prop :=
  chained none st.history ∧
    st.fingerprint = st.history.getLast?.map Event.new

/-- Modelled from the spec's description of `compassion_state_encrypt`'s
hash material: the canonical sorted-key serialization of
`{render: mean render rounded to 9 decimals (0 if no fragments),
breath_sum: breath sum rounded to 9 decimals}` — sorted order puts
`breath_sum` first. -/
def compassionPayload (fragments : List TruthFragment) (breath : Breath) :
    String :=
  let meanRender : ℚ :=
    if fragments.isEmpty then 0
    else (fragments.map (fun fr => (psi_prime fr.value fr.mirror_value).render)).sum /
      (fragments.length : ℚ)
  "\x7b\"breath_sum\": " ++ jsonNum (round9 breath.integral) ++
    ", \"render\": " ++ jsonNum (round9 meanRender) ++ "\x7d"

/-! ## Helper lemmas -/

/-- With an explicit-negation mirror the rendered value collapses to zero:
`(x + (-x)) / 2 = 0` regardless of the compassion weight. -/
lemma render_neg (v : ℚ) : (psi_prime v (some (-v))).render = 0 := by
  simp [psi_prime]

/-- The `genesis_identity` loop never moves: the running Ψ′ sum stays `0`,
so each `accumulate` call adds `0` and the accumulator is returned intact. -/
lemma genesis_fold (l : List ℚ) (m : InfinityMemory) :
    l.foldl genesisStep (0, m) = (0, m) := by
  induction l with
  | nil => rfl
  | cons b l ih =>
    have hstep : genesisStep (0, m) b = (0, m) := by
      simp [genesisStep, InfinityMemory.accumulate, render_neg]
    simpa [hstep] using ih

lemma genesis_identity_state (b : Breath) (f : ℚ) (m : InfinityMemory) :
    (genesis_identity b f m).2 = m := by
  simp [genesis_identity, genesis_fold]

lemma zip_zero_sum : ∀ (n : ℕ) (mv : List ℚ),
    (List.zipWith (· * ·) (List.replicate n (0 : ℚ)) mv).sum = 0
  | 0, _ => rfl
  | _ + 1, [] => rfl
  | n + 1, _ :: mv => by simp [List.replicate_succ, zip_zero_sum n mv]

/-- The truncated dot product against a list of zero Ψ′ magnitudes is zero. -/
lemma eg_aux (l mv : List ℚ) :
    (List.zipWith (· * ·)
      (l.map (fun g => |(psi_prime g (some (-g))).render|)) mv).sum = 0 := by
  simp [render_neg, zip_zero_sum]

/-- `head_hash` after a run of appends depends only on the starting
`head_hash`, never on `count` or the file contents. -/
lemma appendAll_head_eq (records : List JsonObj) :
    ∀ (s1 s2 : MemoryLedger), s1.head_hash = s2.head_hash →
      (appendAll records s1).head_hash = (appendAll records s2).head_hash := by
  induction records with
  | nil => intro s1 s2 h; exact h
  | cons r rs ih =>
    intro s1 s2 h
    have h1 : (MemoryLedger.append true s1 r).1.head_hash =
        (MemoryLedger.append true s2 r).1.head_hash := by
      simp [MemoryLedger.append, hashLine, h]
    exact ih _ _ h1

/-- After any `update_fingerprint` call the stored fingerprint is the
fingerprint of the materials just passed in. -/
lemma update_fp_fingerprint (st : ContinuityState) (now : ℚ)
    (mats : List String) :
    (update_fingerprint st now mats).state.fingerprint = some (fpOf mats) := by
  unfold update_fingerprint
  by_cases h : some (fpOf mats) ≠ st.fingerprint
  · simp [h]
  · rw [if_neg h]
    exact (not_not.mp h).symm

/-- A call whose materials hash to the stored fingerprint is a no-op:
same state, no write, the pair still returned. -/
lemma update_fp_noop (s : ContinuityState) (now : ℚ) (mats : List String)
    (h : s.fingerprint = some (fpOf mats)) :
    update_fingerprint s now mats =
      ⟨(fpOf mats, s.fingerprint), s, false⟩ := by
  unfold update_fingerprint
  rw [h]
  simp

lemma getLast?_concat_ev (h : List Event) (e : Event) :
    (h ++ [e]).getLast? = some e := by
  induction h with
  | nil => rfl
  | cons x xs ih =>
    cases xs with
    | nil => rfl
    | cons y ys => simpa using ih

lemma chained_append (p : Option String) (h : List Event) (e : Event)
    (hc : chained p h)
    (he : e.prev = match h.getLast? with
      | none => p
      | some x => some x.new) :
    chained p (h ++ [e]) := by
  induction h generalizing p with
  | nil => exact ⟨he, trivial⟩
  | cons x xs ih =>
    obtain ⟨hx, hxs⟩ := hc
    refine ⟨hx, ih (some x.new) hxs ?_⟩
    cases xs with
    | nil => exact he
    | cons y ys => exact he

lemma chainInv_step (st : ContinuityState) (now : ℚ) (mats : List String)
    (hI : chainInv st) : chainInv (update_fingerprint st now mats).state := by
  obtain ⟨hch, hfp⟩ := hI
  unfold update_fingerprint
  by_cases h : some (fpOf mats) ≠ st.fingerprint
  · rw [if_pos h]
    constructor
    · refine chained_append none st.history _ hch ?_
      show st.fingerprint = _
      rw [hfp]
      cases st.history.getLast? <;> rfl
    · show some (fpOf mats) = _
      rw [getLast?_concat_ev]
      rfl
  · rw [if_neg h]
    exact ⟨hch, hfp⟩

lemma chainInv_applyCalls (calls : List (ℚ × List String)) :
    ∀ (st : ContinuityState), chainInv st → chainInv (applyCalls calls st) := by
  induction calls with
  | nil => intro st h; exact h
  | cons c cs ih =>
    intro st h
    exact ih _ (chainInv_step st c.1 c.2 h)

/-- Bounds of the compassion formula: the tension term is non-negative, so
`max 0 (1 - tension)` stays inside `[0, 1]`. -/
lemma compassion_formula_bounds (a b : ℚ) :
    0 ≤ max 0 (1 - |a - b| / max (1e-9 : ℚ) (|a| + |b|)) ∧
    max 0 (1 - |a - b| / max (1e-9 : ℚ) (|a| + |b|)) ≤ 1 := by
  have hm : (0 : ℚ) ≤ max (1e-9 : ℚ) (|a| + |b|) :=
    le_trans (by norm_num) (le_max_left _ _)
  have ht : 0 ≤ |a - b| / max (1e-9 : ℚ) (|a| + |b|) :=
    div_nonneg (abs_nonneg _) hm
  exact ⟨le_max_left _ _, max_le (by norm_num) (by linarith)⟩

/-- Canonical serialization of the two-key payload object: sorting puts
`"breath_sum"` before `"render"`. -/
lemma dump_two (x y : JVal) : dumpObj [("render", x), ("breath_sum", y)] =
    "\x7b\"breath_sum\": " ++ dumpVal y ++ ", \"render\": " ++ dumpVal x ++ "\x7d" := by
  apply String.ext
  simp [dumpObj, sortKV, insertKV, keyLt, strLtB, escString, String.intercalate,
        String.data_append, String.intercalate.go]

/-! ## Claims -/

/-- C1: `psi_prime x m` returns exactly the record built from
`mirror = -x` when `m` is absent else `m`, `mag = max 1e-9 (|x| + |mirror|)`,
`tension = |x - mirror| / mag`, `compassion = max 0 (1 - tension)`,
`render = (x + mirror) / 2 * (0.5 + 0.5 * compassion)`; and its compassion
lies in `[0, 1]` for every input. -/
theorem psi_prime_spec (x : ℚ) (m : Option ℚ) :
    psi_prime x m =
      (let mirror : ℚ := match m with
        | none => -x
        | some v => v
       let mag := max (1e-9 : ℚ) (|x| + |mirror|)
       let tension := |x - mirror| / mag
       let compassion := max 0 (1 - tension)
       { x := x, x_bar := mirror, compassion := compassion,
         render := (x + mirror) / 2 * (0.5 + 0.5 * compassion),
         detail := [("tension", tension), ("mag", mag)] } : HeldContradiction) ∧
    0 ≤ (psi_prime x m).compassion ∧ (psi_prime x m).compassion ≤ 1 := by
  refine ⟨rfl, ?_, ?_⟩
  · cases m with
    | none => exact (compassion_formula_bounds x (-x)).1
    | some v => exact (compassion_formula_bounds x v).1
  · cases m with
    | none => exact (compassion_formula_bounds x (-x)).2
    | some v => exact (compassion_formula_bounds x v).2

/-- C2 (amended): `genesis_identity` adds `0` to the accumulator at every
step (`psi_prime b (-b)` renders to `0`), so the accumulator comes back
unchanged, and a second call sharing the first call's accumulator produces
the *same* digest — identical digests with a shared accumulator as well as
with fresh ones. -/
theorem genesis_identity_shared_digest (b : Breath) (f : ℚ)
    (m : InfinityMemory) :
    (genesis_identity b f (genesis_identity b f m).2).1 =
      (genesis_identity b f m).1 ∧
    (genesis_identity b f m).2 = m := by
  have h := genesis_identity_state b f m
  exact ⟨by rw [h], h⟩

/-- C2 counterexample: with breath `[1]`, feedback `0` and one shared
accumulator starting at total `0`, the two digests are equal — refuting
"two different digests". -/
theorem genesis_identity_shared_counterexample :
    (genesis_identity ⟨[1]⟩ 0 (genesis_identity ⟨[1]⟩ 0 ⟨0⟩).2).1 =
      (genesis_identity ⟨[1]⟩ 0 ⟨0⟩).1 := by
  rw [genesis_identity_state]

/-- C3: the explicit-negation mirror collapses the render to exactly `0`,
so `emotional_gravity`, `soul_loop_integrity` and `consciousness_resonance`
are identically `0` and `genesis_identity` leaves the accumulator total
unchanged. -/
theorem explicit_negation_collapse :
    (∀ v : ℚ, (psi_prime v (some (-v))).render = 0) ∧
    (∀ (b : Breath) (mv : List ℚ), emotional_gravity b mv = 0) ∧
    (∀ (I0 : ℚ) (b : Breath) (dD : ℚ), soul_loop_integrity I0 b dD = 0) ∧
    (∀ (lo : ℚ) (b : Breath) (dE : List ℚ), consciousness_resonance lo b dE = 0) ∧
    (∀ (b : Breath) (f : ℚ) (m : InfinityMemory),
      (genesis_identity b f m).2.total = m.total) := by
  refine ⟨render_neg, ?_, ?_, ?_, ?_⟩
  · intro b mv
    exact eg_aux b.grad mv
  · intro I0 b dD
    show (psi_prime (I0 + b.integral) (some (-(I0 + b.integral)))).render /
        max (1e-9 : ℚ) dD = 0
    rw [render_neg]
    exact zero_div _
  · intro lo b dE
    simp [consciousness_resonance, render_neg]
  · intro b f m
    rw [genesis_identity_state]

/-- C4: the final `head_hash` after feeding an ordered record sequence from
the all-zero head depends on nothing but that sequence (not on `count` or
file contents), and each append's new hash is exactly
`SHA256(previous head ++ canonical record)`. -/
theorem ledger_determinism :
    (∀ (records : List JsonObj) (c1 c2 : ℕ) (f1 f2 : List String),
      (appendAll records ⟨zeros64, c1, f1⟩).head_hash =
        (appendAll records ⟨zeros64, c2, f2⟩).head_hash) ∧
    (∀ (st : MemoryLedger) (r : JsonObj),
      (MemoryLedger.append true st r).1.head_hash =
        sha256hex (st.head_hash ++ dumpObj r)) :=
  ⟨fun records c1 c2 f1 f2 =>
    appendAll_head_eq records ⟨zeros64, c1, f1⟩ ⟨zeros64, c2, f2⟩ rfl,
   fun _ _ => rfl⟩

/-- C5 (amended): `append` updates `head_hash` and `count` *before*
attempting the backing-store write; when the write fails the error is
surfaced and the file is unchanged, but the in-memory `head_hash` and
`count` have already advanced. -/
theorem ledger_append_failure (st : MemoryLedger) (r : JsonObj) :
    (MemoryLedger.append false st r).1.head_hash =
      sha256hex (st.head_hash ++ dumpObj r) ∧
    (MemoryLedger.append false st r).1.count = st.count + 1 ∧
    (MemoryLedger.append false st r).1.file = st.file ∧
    (MemoryLedger.append false st r).2 = Except.error WriteErr.ioError :=
  ⟨rfl, rfl, rfl, rfl⟩

/-- C5 counterexample: on a fresh ledger, a failed append leaves `count`
at `1`, not at the prior `0` — refuting "head_hash and count are
unchanged". -/
theorem ledger_append_failure_counterexample :
    ¬((MemoryLedger.append false ledgerInit [("k", JVal.jstr "v")]).1.head_hash =
        ledgerInit.head_hash ∧
      (MemoryLedger.append false ledgerInit [("k", JVal.jstr "v")]).1.count =
        ledgerInit.count) := by
  intro h
  exact absurd h.2 (by decide)

/-- C6: a second `update_fingerprint` with the same materials is a pure
no-op on the state — history length unchanged, no persistence write — yet
still returns the `(fingerprint, previous_fingerprint)` pair. -/
theorem update_fingerprint_idempotent (st : ContinuityState)
    (mats : List String) (t1 t2 : ℚ) :
    (update_fingerprint (update_fingerprint st t1 mats).state t2 mats).state =
      (update_fingerprint st t1 mats).state ∧
    (update_fingerprint (update_fingerprint st t1 mats).state t2 mats).state.history.length =
      (update_fingerprint st t1 mats).state.history.length ∧
    (update_fingerprint (update_fingerprint st t1 mats).state t2 mats).wrote = false ∧
    (update_fingerprint (update_fingerprint st t1 mats).state t2 mats).result =
      (fpOf mats, (update_fingerprint st t1 mats).state.fingerprint) := by
  have h2 := update_fp_noop (update_fingerprint st t1 mats).state t2 mats
    (update_fp_fingerprint st t1 mats)
  rw [h2]
  exact ⟨rfl, rfl, rfl, rfl⟩

/-- C7: `amnesia_alert` is true iff the history is non-empty and the last
entry's timestamp lies strictly within the 60-unit window before `now`;
in particular it is false on an empty history. -/
theorem amnesia_alert_spec (st : ContinuityState) (now : ℚ) :
    (amnesia_alert st now = true ↔
      ∃ e, st.history.getLast? = some e ∧ now - e.ts < 60) ∧
    (st.history = [] → amnesia_alert st now = false) := by
  constructor
  · cases hl : st.history.getLast? with
    | none => simp [amnesia_alert, hl]
    | some e => simp [amnesia_alert, hl]
  · intro h
    simp [amnesia_alert, h]

/-- C9: `compassion_state_encrypt` is the SHA-256 hex digest of the
canonical sorted-key serialization of the rounded mean render and rounded
breath sum, concatenated with `"|"` and the secret. -/
theorem compassion_state_encrypt_spec (fragments : List TruthFragment)
    (breath : Breath) (sigma : String) :
    compassion_state_encrypt fragments breath sigma =
      sha256hex (compassionPayload fragments breath ++ "|" ++ sigma) := by
  cases fragments with
  | nil =>
    simp only [compassion_state_encrypt, compassionPayload]
    rw [dump_two]
    simp [dumpVal, List.isEmpty]
  | cons fr frs =>
    simp only [compassion_state_encrypt, compassionPayload]
    rw [dump_two]
    simp [dumpVal, List.isEmpty]

/-- C10: every `update_fingerprint` run from the empty state keeps the
chain invariant — the first entry's `prev` is absent, each later entry's
`prev` is the previous entry's `new`, and the stored fingerprint is the
last entry's `new` (absent exactly when the history is empty). -/
theorem continuity_chain_invariant (calls : List (ℚ × List String)) :
    chained none (applyCalls calls continuityInit).history ∧
    (applyCalls calls continuityInit).fingerprint =
      (applyCalls calls continuityInit).history.getLast?.map Event.new :=
  chainInv_applyCalls calls continuityInit ⟨trivial, rfl⟩

/-- C8: with an equal non-zero mirror the tension vanishes, compassion is
`1` and the render returns the value itself. -/
theorem psi_prime_equal_mirror (x : ℚ) (hx : x ≠ 0) :
    (psi_prime x (some x)).detail.lookup "tension" = some 0 ∧
    (psi_prime x (some x)).compassion = 1 ∧
    (psi_prime x (some x)).render = x := by
  refine ⟨?_, ?_, ?_⟩
  · simp [psi_prime, List.lookup]
  · simp [psi_prime]
  · simp [psi_prime]
    ring

/-- C8 witness: the equal-mirror theorem applied at `x = 1`. -/
theorem psi_prime_equal_mirror_witness :
    (1 : ℚ) ≠ 0 ∧
    ((psi_prime 1 (some 1)).detail.lookup "tension" = some 0 ∧
     (psi_prime 1 (some 1)).compassion = 1 ∧
     (psi_prime 1 (some 1)).render = 1) :=
  ⟨by norm_num, psi_prime_equal_mirror 1 (by norm_num)⟩

end Lucidia
